import Mathlib

/-!
Shallow embedding of the OCR document pipeline in `app.py` (repository
`ocrExtract`): the page splitter, the per-page OCR invocation loop, the
document assembler, the cleanup step of `process_document`, and the
`/upload` request handler `upload_and_convert`.

External effects are made explicit:
* the OCR backend is an oracle `Env.ocrText` / `Env.ocrFail` giving, for the
  i-th call of the loop, the text the backend returns or the error it raises;
* the PDF library is abstracted by `Env.pdfPageCount` (what `len(fitz.open p)`
  reports) and `Env.fitzOpenFail` (whether `fitz.open` raises);
* the filesystem is a finite map `FS` listing the stored paths and the paths
  whose removal raises (`os.remove` failure).

Strings are modelled with Lean `String`; `str.lower` is modelled on the ASCII
range (the filename extensions at issue are ASCII).
-/

namespace OcrExtract

/-- ASCII case fold of one character, as Python `str.lower` acts on ASCII. -/
def lowerChar (c : Char) : Char :=
  if 'A' ≤ c ∧ c ≤ 'Z' then Char.ofNat (c.toNat + 32) else c

/-- `s.lower()` (ASCII range). -/
def pyLower (s : String) : String := ⟨s.data.map lowerChar⟩

/-- `s.endswith(t)`: the last `len(t)` characters of `s` equal `t`. -/
def pyEndsWith (s t : String) : Bool :=
  decide (s.data.drop (s.data.length - t.data.length) = t.data)

/-- `app.config['UPLOAD_FOLDER']` (app.py line 24). -/
def UPLOAD_FOLDER : String := "./tmp/uploads"

/-- The `ValueError` message of app.py line 92. -/
def unsupportedMsg : String := "Unsupported file type. Please upload a PDF, JPG, or PNG."

/-- The generic HTTP 500 body of app.py line 187. -/
def genericErrorBody : String := "An internal conversion error occurred. Check the server logs."

/-- The sentinel placeholder named by the spec (section 4.2). It appears
nowhere in app.py; it is defined here only to compare the code against the
spec sentence that mentions it. -/
def sentinel : String := "OCR failed to return text for this page"

/-- The MIME type of the success response (app.py line 178). -/
def MIME_DOCX : String :=
  "application/vnd.openxmlformats-officedocument.wordprocessingml.document"

/-- The input kind the suffix dispatch of app.py lines 68-92 recognises. -/
inductive Kind where
  | pdf
  | image
deriving DecidableEq, Repr

/-- `input_file_path.lower().endswith('.pdf')` (app.py line 68). -/
def isPdfPath (p : String) : Bool := pyEndsWith (pyLower p) ".pdf"

/-- The image extensions of app.py line 87. -/
def imageExts : List String := [".jpg", ".jpeg", ".png"]

/-- `input_file_path.lower().endswith(('.jpg', '.jpeg', '.png'))` (app.py line 87). -/
def isImagePath (p : String) : Bool := imageExts.any (fun e => pyEndsWith (pyLower p) e)

/-- The suffix dispatch of app.py lines 68 / 87 / 91, in source order:
`.pdf` first, then the image extensions, else unsupported. -/
def kindOf (p : String) : Option Kind :=
  if isPdfPath p then some Kind.pdf
  else if isImagePath p then some Kind.image
  else none

/-- One element of `pages_to_process` (app.py lines 60-89): either an
in-memory PNG stream rendered from PDF page `pageIndex` at the 150/72 scale
matrix, or the uploaded image file itself, passed by path. -/
inductive PageSource where
  | pdfStream (pageIndex : Nat)
  | imagePath (p : String)
deriving DecidableEq, Repr

/-- The exceptions `process_document` can raise. -/
inductive PipeErr where
  | clientMissing
  | unsupported (msg : String)
  | ioErr (detail : String)
  | backend (detail : String)
deriving DecidableEq, Repr

/-- The oracle for the external collaborators of one invocation. -/
structure Env where
  /-- `len(fitz.open(path))` for this input, when it is a PDF. -/
  pdfPageCount : Nat
  /-- `some d` when `fitz.open` raises with message `d`. -/
  fitzOpenFail : Option String
  /-- the text the backend returns for the i-th OCR call (0-based). -/
  ocrText : Nat → String
  /-- `some d` when the i-th OCR call raises with message `d`. -/
  ocrFail : Nat → Option String

/-- Step 1 of `process_document` (app.py lines 67-92): build
`pages_to_process` or raise. -/
def splitPages (env : Env) (p : String) : Except PipeErr (List PageSource) :=
  match kindOf p with
  | some Kind.pdf =>
      match env.fitzOpenFail with
      | some d => .error (.ioErr d)
      | none => .ok ((List.range env.pdfPageCount).map PageSource.pdfStream)
  | some Kind.image => .ok [PageSource.imagePath p]
  | none => .error (.unsupported unsupportedMsg)

/-- One item of the python-docx `Document` body: a paragraph or the page
break added by `document.add_section(WD_SECTION.NEW_PAGE)`. -/
inductive DocItem where
  | para (text : String)
  | pageBreak
deriving DecidableEq, Repr

/-- The page-marker paragraph text of app.py line 108:
`f"\n--- Page {page_number} ---"`. Note the leading newline. -/
def pageMarker (n : Nat) : String := "\n--- Page " ++ toString n ++ " ---"

/-- What one iteration of the loop of app.py lines 95-113 appends to the
document, for page index `i` (0-based) out of `n` pages: the marker
paragraph, the extracted-text paragraph, and a page break when
`len(pages) > 1 and page_number < len(pages)`. -/
def pageItems (env : Env) (n i : Nat) : List DocItem :=
  [DocItem.para (pageMarker (i + 1)), DocItem.para (env.ocrText i)] ++
    (if 1 < n ∧ i + 1 < n then [DocItem.pageBreak] else [])

/-- The loop of app.py lines 95-113 over the remaining page indices, also
counting the OCR backend calls issued. A raising call stops the loop with
the exception; no retry, no partial document. -/
def ocrGo (env : Env) (n : Nat) : List Nat → Except PipeErr (List DocItem) × Nat
  | [] => (.ok [], 0)
  | i :: rest =>
    match env.ocrFail i with
    | some d => (.error (.backend d), 1)
    | none =>
      match ocrGo env n rest with
      | (.ok tail, c) => (.ok (pageItems env n i ++ tail), c + 1)
      | (.error e, c) => (.error e, c + 1)

/-- The `try` body of `process_document` (app.py lines 66-119): split, then
the OCR loop; returns the document body (or the exception) and the number of
backend calls issued. -/
def pipelineBody (env : Env) (p : String) : Except PipeErr (List DocItem) × Nat :=
  match splitPages env p with
  | .error e => (.error e, 0)
  | .ok pages => ocrGo env pages.length (List.range pages.length)

/-- The stored-file state: which paths exist, and for which paths
`os.remove` raises. -/
structure FS where
  files : List String
  failRemove : List String
deriving DecidableEq, Repr

/-- `os.path.exists` (app.py line 127). -/
def osPathExists (fs : FS) (p : String) : Bool := fs.files.contains p

/-- `os.remove` (app.py line 129): raises for paths in `failRemove`,
otherwise deletes the path. -/
def osRemove (fs : FS) (p : String) : Except String FS :=
  if fs.failRemove.contains p then .error "remove failed"
  else .ok ⟨fs.files.filter (fun q => decide (q ≠ p)), fs.failRemove⟩

/-- The guarded deletion of app.py lines 126-132: `if os.path.exists:` then
`try: os.remove except Exception: warn`. Total by construction — the
`except` clause swallows the removal error; the Bool records whether the
warning was printed. -/
def cleanupAttempt (fs : FS) (p : String) : FS × Bool :=
  if osPathExists fs p then
    match osRemove fs p with
    | .ok fs2 => (fs2, false)
    | .error _ => (fs, true)
  else (fs, false)

/-- The observable outcome of one `process_document` invocation. -/
structure ProcResult where
  result : Except PipeErr (List DocItem)
  ocrCalls : Nat
  fs : FS
  warned : Bool
deriving Repr

/-- `process_document` (app.py lines 52-132). The client-missing check
(lines 63-64) precedes the `try`, so it skips the cleanup; every path
through the `try` body — success, unsupported format, fitz/IO failure,
backend failure — runs the `finally` cleanup of lines 121-132. -/
def process_document (env : Env) (fs : FS) (p : String) (clientOk : Bool) : ProcResult :=
  if clientOk then
    let body := pipelineBody env p
    let c := cleanupAttempt fs p
    ⟨body.1, body.2, c.1, c.2⟩
  else ⟨.error .clientMissing, 0, fs, false⟩

/-- `os.path.basename` (POSIX): the part after the last slash. -/
def osBasename (s : String) : String :=
  ⟨s.data.foldl (fun acc c => if c = '/' then [] else acc ++ [c]) []⟩

/-- `os.path.join` for two components (POSIX). -/
def osJoin (a b : String) : String :=
  if b.data.head? = some '/' then b
  else if a = "" ∨ a.data.getLast? = some '/' then a ++ b
  else a ++ "/" ++ b

/-- The path at which the handler saves the upload (app.py lines 158-159):
`os.path.join(app.config['UPLOAD_FOLDER'], os.path.basename(file.filename))`. -/
def savedPath (filename : String) : String := osJoin UPLOAD_FOLDER (osBasename filename)

/-- `s.rsplit('.', 1)[0]`: everything before the last dot, or `s` itself
when it has no dot (app.py line 174). -/
def stemOf (s : String) : String :=
  match s.data.reverse.dropWhile (fun c => decide (c ≠ '.')) with
  | [] => s
  | _ :: rest => ⟨rest.reverse⟩

/-- The download name of app.py line 174. -/
def downloadName (fname : String) : String := stemOf fname ++ "_OCR.docx"

/-- The HTTP response of the `/upload` handler: a file attachment or a
`(body, status)` pair. -/
inductive HttpResp where
  | fileResp (doc : List DocItem) (mime dlName : String)
  | errResp (status : Nat) (body : String)
deriving Repr

/-- The request-dependent inputs of `upload_and_convert`. -/
structure UploadReq where
  apiKeyPresent : Bool
  hasFilePart : Bool
  filename : String

/-- `upload_and_convert` (app.py lines 142-190): the guard chain, the save
under `savedPath`, the `process_document` call (the client object exists, so
`clientOk = true`), and the exception mapping — `ValueError` to a 400 whose
body is the error message, any other exception to a 500 with the fixed
generic body. -/
def upload_and_convert (req : UploadReq) (env : Env) (fs : FS) : HttpResp × FS :=
  if !req.apiKeyPresent then
    (.errResp 500 "Server not configured: Gemini API key is missing. Please set the GEMINI_API_KEY environment variable.", fs)
  else if !req.hasFilePart then (.errResp 400 "No file part", fs)
  else if req.filename = "" then (.errResp 400 "No selected file", fs)
  else
    let fpath := savedPath req.filename
    let fs1 : FS := ⟨fpath :: fs.files, fs.failRemove⟩
    let pr := process_document env fs1 fpath true
    match pr.result with
    | .ok doc => (.fileResp doc MIME_DOCX (downloadName (osBasename req.filename)), pr.fs)
    | .error (.unsupported m) => (.errResp 400 m, pr.fs)
    | .error _ => (.errResp 500 genericErrorBody, pr.fs)

/-- The assembled document body for an `n`-page success run. -/
def assembleDoc (env : Env) (n : Nat) : List DocItem :=
  ((List.range n).map (pageItems env n)).flatten

/-- Number of explicit page breaks in a document body. -/
def countBreaks (doc : List DocItem) : Nat :=
  doc.countP (fun it => decide (it = DocItem.pageBreak))

end OcrExtract

namespace OcrExtract

/-! ### Basic unfolding lemmas -/

theorem process_document_true (env : Env) (fs : FS) (p : String) :
    process_document env fs p true =
      ⟨(pipelineBody env p).1, (pipelineBody env p).2,
        (cleanupAttempt fs p).1, (cleanupAttempt fs p).2⟩ := rfl

theorem ocrGo_all_ok (env : Env) (n : Nat) (l : List Nat)
    (h : ∀ i ∈ l, env.ocrFail i = none) :
    ocrGo env n l = (.ok ((l.map (pageItems env n)).flatten), l.length) := by
  induction l with
  | nil => rfl
  | cons a t ih =>
    have ha : env.ocrFail a = none := h a (by simp)
    have ht : ∀ i ∈ t, env.ocrFail i = none := fun i hi => h i (by simp [hi])
    simp [ocrGo, ha, ih ht]

theorem pipelineBody_ok (env : Env) (p : String) (pages : List PageSource)
    (hsplit : splitPages env p = .ok pages)
    (h : ∀ i, i < pages.length → env.ocrFail i = none) :
    pipelineBody env p = (.ok (assembleDoc env pages.length), pages.length) := by
  have h' : ∀ i ∈ List.range pages.length, env.ocrFail i = none := by
    intro i hi; exact h i (List.mem_range.mp hi)
  simp [pipelineBody, hsplit, ocrGo_all_ok env pages.length _ h', assembleDoc]

theorem range_decomp {i n : Nat} (h : i < n) :
    List.range n = List.range i ++ i :: (List.range (n - (i + 1))).map (fun k => (i + 1) + k) := by
  have hn : n = (i + 1) + (n - (i + 1)) := by omega
  rw [hn, List.range_add, List.range_succ]
  simp

theorem ocrGo_first_fail (env : Env) (n : Nat) (d : String) (i : Nat)
    (hi : env.ocrFail i = some d) :
    ∀ (l₁ l₂ : List Nat), (∀ j ∈ l₁, env.ocrFail j = none) →
      ocrGo env n (l₁ ++ i :: l₂) = (.error (.backend d), l₁.length + 1) := by
  intro l₁
  induction l₁ with
  | nil => intro l₂ _; simp [ocrGo, hi]
  | cons a t ih =>
    intro l₂ h
    have ha : env.ocrFail a = none := h a (by simp)
    have ht : ∀ j ∈ t, env.ocrFail j = none := fun j hj => h j (by simp [hj])
    simp [ocrGo, ha, ih l₂ ht]

theorem pipelineBody_fail (env : Env) (p : String) (pages : List PageSource)
    (hsplit : splitPages env p = .ok pages) (i : Nat) (d : String)
    (hin : i < pages.length) (hfail : env.ocrFail i = some d)
    (hprev : ∀ j, j < i → env.ocrFail j = none) :
    pipelineBody env p = (.error (.backend d), i + 1) := by
  have hrange := range_decomp hin
  have hprev' : ∀ j ∈ List.range i, env.ocrFail j = none := by
    intro j hj; exact hprev j (List.mem_range.mp hj)
  have := ocrGo_first_fail env pages.length d i hfail (List.range i)
    ((List.range (pages.length - (i + 1))).map (fun k => (i + 1) + k)) hprev'
  simp [pipelineBody, hsplit, hrange, this]

/-! ### Counting lemmas for the assembled document -/

theorem countBreaks_pageItems (env : Env) (n i : Nat) :
    countBreaks (pageItems env n i) = if 1 < n ∧ i + 1 < n then 1 else 0 := by
  by_cases h : 1 < n ∧ i + 1 < n <;> simp [countBreaks, pageItems, h, List.countP_cons]

theorem sum_indicator_min (m : Nat) :
    ∀ k, ((List.range k).map (fun i => if i < m then (1 : Nat) else 0)).sum = min k m := by
  intro k
  induction k with
  | zero => simp
  | succ k ih =>
    rw [List.range_succ]
    simp only [List.map_append, List.sum_append, ih]
    by_cases h : k < m
    · simp [h]; omega
    · simp [h]; omega

theorem countBreaks_assemble (env : Env) (n : Nat) :
    countBreaks (assembleDoc env n) = n - 1 := by
  unfold assembleDoc countBreaks
  rw [List.countP_flatten, List.map_map]
  have hfun : ∀ i ∈ List.range n,
      (List.countP (fun it => decide (it = DocItem.pageBreak)) ∘ pageItems env n) i =
        if i < n - 1 then (1 : Nat) else 0 := by
    intro i hi
    have hin : i < n := List.mem_range.mp hi
    have := countBreaks_pageItems env n i
    unfold countBreaks at this
    simp only [Function.comp_apply, this]
    by_cases h1 : 1 < n
    · by_cases h2 : i + 1 < n
      · rw [if_pos ⟨h1, h2⟩, if_pos (by omega)]
      · rw [if_neg (by tauto), if_neg (by omega)]
    · rw [if_neg (by tauto), if_neg (by omega)]
  rw [List.map_congr_left hfun, sum_indicator_min (n - 1) n]
  omega

theorem assemble_decomp (env : Env) {n i : Nat} (h : i < n) :
    ∃ pre post, assembleDoc env n = pre ++ pageItems env n i ++ post := by
  refine ⟨((List.range i).map (pageItems env n)).flatten,
    ((List.range (n - (i + 1))).map (fun k => pageItems env n ((i + 1) + k))).flatten, ?_⟩
  unfold assembleDoc
  rw [range_decomp h]
  simp [List.flatten_append, List.map_map, Function.comp_def]

end OcrExtract

namespace OcrExtract

/-! ### String lemmas: lowering, suffix tests, basename, join -/

theorem data_append (a b : String) : (a ++ b).data = a.data ++ b.data := by
  cases a; cases b; rfl

theorem pyLower_append (a b : String) : pyLower (a ++ b) = pyLower a ++ pyLower b := by
  apply String.ext
  simp [pyLower, data_append]

theorem pyEndsWith_append_of_le (a b t : String) (h : t.data.length ≤ b.data.length) :
    pyEndsWith (a ++ b) t = pyEndsWith b t := by
  unfold pyEndsWith
  rw [data_append, List.length_append, Nat.add_sub_assoc h, List.drop_append]

theorem pyEndsWith_refl (t : String) : pyEndsWith t t = true := by
  unfold pyEndsWith
  simp

theorem pyEndsWith_append_self (a t : String) : pyEndsWith (a ++ t) t = true := by
  rw [pyEndsWith_append_of_le a t t le_rfl, pyEndsWith_refl]

theorem pyEndsWith_of_short (b t : String) (h : b.data.length < t.data.length) :
    pyEndsWith b t = false := by
  unfold pyEndsWith
  apply decide_eq_false
  intro heq
  have h0 : b.data.length - t.data.length = 0 := by omega
  rw [h0, List.drop_zero] at heq
  have := congrArg List.length heq
  omega

theorem toNat_ofNat_valid (n : Nat) (h : n.isValidChar) : (Char.ofNat n).toNat = n := by
  have hlt : n < UInt32.size := by
    rcases h with h | ⟨_, h2⟩ <;> simp [UInt32.size] <;> omega
  simp only [Char.ofNat, dif_pos h, Char.ofNatAux, Char.toNat]
  simp [UInt32.ofNat', UInt32.toNat, Nat.mod_eq_of_lt hlt]

theorem toNat_le_of_le {a b : Char} (h : a ≤ b) : a.toNat ≤ b.toNat := by
  rw [Char.le_def] at h
  exact h

theorem lowerChar_ne_slash {c : Char} (h : c ≠ '/') : lowerChar c ≠ '/' := by
  unfold lowerChar
  split
  · rename_i hAZ
    intro heq
    have h1 : 65 ≤ c.toNat := toNat_le_of_le hAZ.1
    have h2 : c.toNat ≤ 90 := toNat_le_of_le hAZ.2
    have hv : (c.toNat + 32).isValidChar := by left; omega
    have h47 := toNat_ofNat_valid (c.toNat + 32) hv
    rw [heq] at h47
    have : (47 : Nat) = c.toNat + 32 := h47
    omega
  · exact h

theorem pyLower_slash_free {b : String} (hb : ∀ c ∈ b.data, c ≠ '/') :
    ∀ c ∈ (pyLower b).data, c ≠ '/' := by
  intro c hc
  simp only [pyLower, List.mem_map] at hc
  obtain ⟨a, ha, rfl⟩ := hc
  exact lowerChar_ne_slash (hb a ha)

theorem basename_foldl_no_slash (l : List Char) :
    ∀ acc : List Char, ('/' ∉ acc) →
      '/' ∉ l.foldl (fun acc c => if c = '/' then [] else acc ++ [c]) acc := by
  induction l with
  | nil => intro acc h; exact h
  | cons c t ih =>
    intro acc h
    by_cases hc : c = '/'
    · simp only [List.foldl_cons, if_pos hc]
      exact ih [] (by simp)
    · simp only [List.foldl_cons, if_neg hc]
      refine ih (acc ++ [c]) ?_
      intro hmem
      rcases List.mem_append.mp hmem with h1 | h1
      · exact h h1
      · rw [List.mem_singleton] at h1
        exact hc h1.symm

theorem osBasename_no_slash (s : String) : ∀ c ∈ (osBasename s).data, c ≠ '/' := by
  intro c hc heq
  subst heq
  exact basename_foldl_no_slash s.data [] (by simp) hc

theorem savedPath_eq (f : String) : savedPath f = "./tmp/uploads/" ++ osBasename f := by
  unfold savedPath osJoin UPLOAD_FOLDER
  have hns := osBasename_no_slash f
  have h1 : ¬ ((osBasename f).data.head? = some '/') := by
    intro h
    cases hd : (osBasename f).data with
    | nil => rw [hd] at h; exact Option.noConfusion h
    | cons a t =>
      rw [hd] at h
      have : a = '/' := by injection h
      exact hns a (by rw [hd]; exact List.mem_cons_self a t) this
  rw [if_neg h1, if_neg (by decide)]
  apply String.ext
  rw [data_append, data_append, data_append]
  rfl

theorem pyEndsWith_folder_short (lb e : String)
    (he : ∀ c ∈ e.data, c ≠ '/')
    (hm : lb.data.length < e.data.length) :
    pyEndsWith ("./tmp/uploads/" ++ lb) e = false := by
  unfold pyEndsWith
  apply decide_eq_false
  intro heq
  have hdata : ("./tmp/uploads/" ++ lb).data = "./tmp/uploads/".data ++ lb.data :=
    data_append _ _
  have hlen14 : ("./tmp/uploads/" : String).data.length = 14 := by decide
  have hL : ("./tmp/uploads/" ++ lb).data.length = 14 + lb.data.length := by
    rw [hdata, List.length_append, hlen14]
  have h13 : ("./tmp/uploads/" ++ lb).data.drop 13 = '/' :: lb.data := by
    rw [hdata, List.drop_append_eq_append_drop, hlen14]
    have hd13 : ("./tmp/uploads/" : String).data.drop 13 = ['/'] := by decide
    rw [hd13]
    simp
  set n0 := ("./tmp/uploads/" ++ lb).data.length - e.data.length with hn0
  have hn0le : n0 ≤ 13 := by omega
  have hdd : e.data.drop (13 - n0) = '/' :: lb.data := by
    rw [← heq, List.drop_drop]
    have : n0 + (13 - n0) = 13 := by omega
    rw [this, h13]
  have hmem : '/' ∈ e.data := by
    apply List.drop_subset (13 - n0) e.data
    rw [hdd]
    exact List.mem_cons_self _ _
  exact he '/' hmem rfl

theorem pyEndsWith_folder (b e : String)
    (he : ∀ c ∈ e.data, c ≠ '/') :
    pyEndsWith ("./tmp/uploads/" ++ b) e = pyEndsWith b e := by
  rcases le_or_lt e.data.length b.data.length with h | h
  · exact pyEndsWith_append_of_le _ _ _ h
  · rw [pyEndsWith_folder_short b e he h, pyEndsWith_of_short b e h]

theorem pyLower_folder (b : String) :
    pyLower ("./tmp/uploads/" ++ b) = "./tmp/uploads/" ++ pyLower b := by
  rw [pyLower_append]
  have : pyLower "./tmp/uploads/" = "./tmp/uploads/" := by decide
  rw [this]

theorem isPdfPath_saved (f : String) : isPdfPath (savedPath f) = isPdfPath (osBasename f) := by
  unfold isPdfPath
  rw [savedPath_eq, pyLower_folder, pyEndsWith_folder _ ".pdf" (by decide)]

theorem isImagePath_saved (f : String) :
    isImagePath (savedPath f) = isImagePath (osBasename f) := by
  unfold isImagePath imageExts
  simp only [List.any_cons, List.any_nil]
  rw [savedPath_eq, pyLower_folder,
    pyEndsWith_folder _ ".jpg" (by decide),
    pyEndsWith_folder _ ".jpeg" (by decide),
    pyEndsWith_folder _ ".png" (by decide)]

theorem kindOf_savedPath (f : String) : kindOf (savedPath f) = kindOf (osBasename f) := by
  unfold kindOf
  rw [isPdfPath_saved, isImagePath_saved]

end OcrExtract

namespace OcrExtract

/-! ### Packaged facts about whole invocations -/

theorem process_fs (env : Env) (fs : FS) (p : String) :
    (process_document env fs p true).fs = (cleanupAttempt fs p).1 := rfl

theorem process_warned (env : Env) (fs : FS) (p : String) :
    (process_document env fs p true).warned = (cleanupAttempt fs p).2 := rfl

theorem process_ok (env : Env) (fs : FS) (p : String) (pages : List PageSource)
    (hsplit : splitPages env p = .ok pages)
    (hok : ∀ i, i < pages.length → env.ocrFail i = none) :
    (process_document env fs p true).result = .ok (assembleDoc env pages.length) ∧
    (process_document env fs p true).ocrCalls = pages.length := by
  rw [process_document_true, pipelineBody_ok env p pages hsplit hok]
  exact ⟨rfl, rfl⟩

theorem process_page_decomp (env : Env) (fs : FS) (p : String) (pages : List PageSource)
    (hsplit : splitPages env p = .ok pages)
    (hok : ∀ i, i < pages.length → env.ocrFail i = none)
    (i : Nat) (hi : i < pages.length) :
    ∃ pre post,
      (process_document env fs p true).result =
        .ok (pre ++ [DocItem.para (pageMarker (i + 1)), DocItem.para (env.ocrText i)] ++ post) := by
  obtain ⟨pre, post, hdec⟩ := assemble_decomp env hi
  refine ⟨pre,
    (if 1 < pages.length ∧ i + 1 < pages.length then [DocItem.pageBreak] else []) ++ post, ?_⟩
  rw [(process_ok env fs p pages hsplit hok).1, hdec]
  unfold pageItems
  simp

theorem cleanup_removes (fs : FS) (p : String) (h : fs.failRemove.contains p = false) :
    (cleanupAttempt fs p).1.files.contains p = false := by
  unfold cleanupAttempt osPathExists osRemove
  by_cases hex : fs.files.contains p
  · rw [if_pos hex, h]
    simp only [Bool.false_eq_true, if_neg]
    have hnm : p ∉ fs.files.filter (fun q => decide (q ≠ p)) := by
      intro hm
      have := (List.mem_filter.mp hm).2
      simp at this
    simp [hnm]
  · rw [if_neg hex]
    simp at hex
    simp [hex]

/-! ### Claim C1 -/

/-- One-page PDF whose OCR call returns the empty string. -/
def c1Env : Env := ⟨1, none, fun _ => "", fun _ => none⟩

/-- C1 counterexample: running the pipeline on a one-page PDF whose OCR
backend call returns the empty string produces a document whose text
paragraph is the empty string, and the sentinel placeholder
"OCR failed to return text for this page" appears in no paragraph. The
claimed sentinel substitution does not exist in app.py. -/
theorem c1_counterexample :
    (process_document c1Env ⟨["./tmp/uploads/scan.pdf"], []⟩ "./tmp/uploads/scan.pdf" true).result =
      .ok [DocItem.para "\n--- Page 1 ---", DocItem.para ""] ∧
    DocItem.para sentinel ∉ [DocItem.para "\n--- Page 1 ---", DocItem.para ""] ∧
    "" ≠ sentinel := ⟨rfl, by decide, by decide⟩

/-- C1 (amended): for every page of a successfully split input whose OCR
calls all succeed, the text paragraph written for that page equals the
string the backend returned, verbatim — an empty or whitespace-only result
is written as that empty/whitespace paragraph, with no sentinel substituted
— and the pipeline still completes successfully (the result is `ok`). -/
theorem c1_text_verbatim (env : Env) (fs : FS) (p : String) (pages : List PageSource)
    (hsplit : splitPages env p = .ok pages)
    (hok : ∀ i, i < pages.length → env.ocrFail i = none)
    (i : Nat) (hi : i < pages.length) :
    ∃ pre post,
      (process_document env fs p true).result =
        .ok (pre ++ [DocItem.para (pageMarker (i + 1)), DocItem.para (env.ocrText i)] ++ post) :=
  process_page_decomp env fs p pages hsplit hok i hi

/-- Two-page PDF whose OCR calls both return the empty string. -/
def c1WitnessEnv : Env := ⟨2, none, fun _ => "", fun _ => none⟩

/-- C1 witness: the amended theorem applied to a concrete two-page PDF whose
OCR calls return empty strings. -/
theorem c1_text_verbatim_witness :
    ∃ pre post,
      (process_document c1WitnessEnv ⟨[], []⟩ "doc.pdf" true).result =
        .ok (pre ++ [DocItem.para (pageMarker 1), DocItem.para ""] ++ post) :=
  c1_text_verbatim c1WitnessEnv ⟨[], []⟩ "doc.pdf"
    ((List.range 2).map PageSource.pdfStream) rfl (fun _ _ => rfl) 0 (by decide)

end OcrExtract

namespace OcrExtract

/-! ### Claim C4 -/

/-- C4: for every valid input split into N pages whose OCR calls all
succeed, the output document is the concatenation of exactly N per-page
sections; the i-th section (0-based) is headed by the page-marker paragraph
for page number i+1, so the page numbers are exactly 1..N in strictly
increasing order; each section consists of exactly its marker paragraph,
its text paragraph, and then a single page break when and only when the
page is not the last one — so breaks sit exactly between consecutive
pages, never after the last page, and never inside a page — and the
document holds exactly N−1 page breaks in total; in particular a
single-page input yields exactly 1 section and 0 breaks. -/
theorem c4_sections_and_breaks (env : Env) (fs : FS) (p : String) (pages : List PageSource)
    (hsplit : splitPages env p = .ok pages)
    (hok : ∀ i, i < pages.length → env.ocrFail i = none) :
    ∃ parts : List (List DocItem),
      (process_document env fs p true).result = .ok parts.flatten ∧
      parts.length = pages.length ∧
      (∀ i, (hi : i < parts.length) → parts[i].head? =
        some (DocItem.para (pageMarker (i + 1)))) ∧
      (∀ i, (hi : i < parts.length) → parts[i] =
        [DocItem.para (pageMarker (i + 1)), DocItem.para (env.ocrText i)] ++
          (if i + 1 < pages.length then [DocItem.pageBreak] else [])) ∧
      countBreaks parts.flatten = pages.length - 1 := by
  refine ⟨(List.range pages.length).map (pageItems env pages.length), ?_, by simp, ?_, ?_, ?_⟩
  · exact (process_ok env fs p pages hsplit hok).1
  · intro i hi
    rw [List.getElem_map, List.getElem_range]
    rfl
  · intro i hi
    rw [List.getElem_map, List.getElem_range]
    unfold pageItems
    by_cases hlast : i + 1 < pages.length
    · rw [if_pos ⟨by omega, hlast⟩, if_pos hlast]
    · rw [if_neg (fun hcon => hlast hcon.2), if_neg hlast]
  · exact countBreaks_assemble env pages.length

/-- Three-page PDF with distinct page texts. -/
def c4Env : Env := ⟨3, none, fun i => toString i, fun _ => none⟩

/-- C4 witness: the theorem applied to a concrete three-page PDF. -/
theorem c4_sections_and_breaks_witness :
    ∃ parts : List (List DocItem),
      (process_document c4Env ⟨[], []⟩ "a.pdf" true).result = .ok parts.flatten ∧
      parts.length = ((List.range 3).map PageSource.pdfStream).length ∧
      (∀ i, (hi : i < parts.length) → parts[i].head? =
        some (DocItem.para (pageMarker (i + 1)))) ∧
      (∀ i, (hi : i < parts.length) → parts[i] =
        [DocItem.para (pageMarker (i + 1)), DocItem.para (c4Env.ocrText i)] ++
          (if i + 1 < ((List.range 3).map PageSource.pdfStream).length
            then [DocItem.pageBreak] else [])) ∧
      countBreaks parts.flatten = ((List.range 3).map PageSource.pdfStream).length - 1 :=
  c4_sections_and_breaks c4Env ⟨[], []⟩ "a.pdf"
    ((List.range 3).map PageSource.pdfStream) rfl (fun _ _ => rfl)

/-! ### Claim C5 -/

/-- One-page PDF whose OCR call returns "hello". -/
def c5Env : Env := ⟨1, none, fun _ => "hello", fun _ => none⟩

/-- C5 counterexample: on a one-page PDF the marker paragraph written into
the document is "\n--- Page 1 ---" — a leading newline precedes the dashes
(app.py line 108 writes `f"\n--- Page {page_number} ---"`), so no paragraph
of the output is exactly the bare line "--- Page 1 ---". -/
theorem c5_counterexample :
    (process_document c5Env ⟨[], []⟩ "one.pdf" true).result =
      .ok [DocItem.para "\n--- Page 1 ---", DocItem.para "hello"] ∧
    DocItem.para "--- Page 1 ---" ∉
      [DocItem.para "\n--- Page 1 ---", DocItem.para "hello"] := ⟨rfl, by decide⟩

/-- C5 (amended): for every page N of a successful run, the page-marker
paragraph written for that page is exactly "\n--- Page N ---" (the line
"--- Page N ---" preceded by one newline), and it is immediately followed by
one paragraph holding that page's extracted text. -/
theorem c5_marker_then_text (env : Env) (fs : FS) (p : String) (pages : List PageSource)
    (hsplit : splitPages env p = .ok pages)
    (hok : ∀ i, i < pages.length → env.ocrFail i = none)
    (i : Nat) (hi : i < pages.length) :
    pageMarker (i + 1) = "\n" ++ "--- Page " ++ toString (i + 1) ++ " ---" ∧
    ∃ pre post,
      (process_document env fs p true).result =
        .ok (pre ++ [DocItem.para (pageMarker (i + 1)), DocItem.para (env.ocrText i)] ++ post) :=
  ⟨by unfold pageMarker; apply String.ext; simp [data_append],
    process_page_decomp env fs p pages hsplit hok i hi⟩

/-- Two-page PDF for the C5 witness. -/
def c5WitnessEnv : Env := ⟨2, none, fun i => toString i, fun _ => none⟩

/-- C5 witness: the amended theorem applied to page 2 of a concrete
two-page PDF. -/
theorem c5_marker_then_text_witness :
    pageMarker 2 = "\n" ++ "--- Page " ++ toString 2 ++ " ---" ∧
    ∃ pre post,
      (process_document c5WitnessEnv ⟨[], []⟩ "b.pdf" true).result =
        .ok (pre ++ [DocItem.para (pageMarker 2), DocItem.para "1"] ++ post) :=
  c5_marker_then_text c5WitnessEnv ⟨[], []⟩ "b.pdf"
    ((List.range 2).map PageSource.pdfStream) rfl (fun _ _ => rfl) 1 (by decide)

/-! ### Claim C9 -/

/-- C9: a PDF input reporting zero pages completes successfully with an
empty output document — zero sections, zero page breaks — and issues zero
OCR backend calls; no error is raised for the empty case. -/
theorem c9_zero_page_pdf (env : Env) (fs : FS) (p : String)
    (hp : kindOf p = some Kind.pdf) (hop : env.fitzOpenFail = none)
    (h0 : env.pdfPageCount = 0) :
    (process_document env fs p true).result = .ok [] ∧
    (process_document env fs p true).ocrCalls = 0 ∧
    countBreaks [] = 0 := by
  have hsplit : splitPages env p = .ok [] := by
    simp [splitPages, hp, hop, h0]
  have h := process_ok env fs p [] hsplit (by intro i hilt; simp at hilt)
  exact ⟨h.1, h.2, rfl⟩

/-- Zero-page PDF environment. -/
def c9Env : Env := ⟨0, none, fun _ => "", fun _ => none⟩

/-- C9 witness: the theorem applied to a concrete zero-page PDF. -/
theorem c9_zero_page_pdf_witness :
    (process_document c9Env ⟨[], []⟩ "empty.pdf" true).result = .ok [] ∧
    (process_document c9Env ⟨[], []⟩ "empty.pdf" true).ocrCalls = 0 ∧
    countBreaks [] = 0 :=
  c9_zero_page_pdf c9Env ⟨[], []⟩ "empty.pdf" (by decide) rfl rfl

end OcrExtract

namespace OcrExtract

/-! ### Claim C3 -/

/-- C3: on every exit path of `process_document` with an initialized client
— success, unsupported format, or backend/IO failure, all of which run the
`finally` block — (1) when the deletion itself does not fail, the uploaded
input file is gone from storage afterwards; (2) the result of the invocation
is independent of whether the deletion fails, i.e. a deletion failure is
never propagated to the caller; (3) a failing deletion only sets the logged
warning; (4) running the cleanup a second time on the resulting state is a
no-op that reports no warning — it cannot raise, being a total function by
the `except` clause it embeds. -/
theorem c3_cleanup_behaviour (env : Env) (fs : FS) (p : String) :
    (fs.failRemove.contains p = false →
      (process_document env fs p true).fs.files.contains p = false) ∧
    (∀ l₁ l₂ : List String,
      (process_document env ⟨fs.files, l₁⟩ p true).result =
        (process_document env ⟨fs.files, l₂⟩ p true).result) ∧
    (fs.files.contains p = true ∧ fs.failRemove.contains p = true →
      (process_document env fs p true).warned = true) ∧
    (fs.failRemove.contains p = false →
      cleanupAttempt (process_document env fs p true).fs p =
        ((process_document env fs p true).fs, false)) := by
  refine ⟨?_, fun l₁ l₂ => rfl, ?_, ?_⟩
  · intro h
    rw [process_fs]
    exact cleanup_removes fs p h
  · rintro ⟨hex, hfail⟩
    rw [process_warned]
    unfold cleanupAttempt osPathExists osRemove
    rw [if_pos hex, hfail]
    simp
  · intro h
    have hng := cleanup_removes fs p h
    rw [process_fs]
    set g := (cleanupAttempt fs p).1
    have hex : osPathExists g p = false := hng
    unfold cleanupAttempt
    rw [hex]
    simp

/-- One-page PDF for the C3 witness. -/
def c3Env : Env := ⟨1, none, fun _ => "t", fun _ => none⟩

/-- C3 witness: the theorem applied to concrete storage states — a stored
upload whose removal succeeds, one whose removal fails, and two storage
states differing only in the removal-failure set. -/
theorem c3_cleanup_behaviour_witness :
    (process_document c3Env ⟨["./tmp/uploads/u.pdf"], []⟩ "./tmp/uploads/u.pdf" true).fs.files.contains
        "./tmp/uploads/u.pdf" = false ∧
    (process_document c3Env ⟨["./tmp/uploads/u.pdf"], ["./tmp/uploads/u.pdf"]⟩ "./tmp/uploads/u.pdf" true).result =
      (process_document c3Env ⟨["./tmp/uploads/u.pdf"], []⟩ "./tmp/uploads/u.pdf" true).result ∧
    (process_document c3Env ⟨["./tmp/uploads/u.pdf"], ["./tmp/uploads/u.pdf"]⟩ "./tmp/uploads/u.pdf" true).warned = true ∧
    cleanupAttempt (process_document c3Env ⟨["./tmp/uploads/u.pdf"], []⟩ "./tmp/uploads/u.pdf" true).fs
        "./tmp/uploads/u.pdf" =
      ((process_document c3Env ⟨["./tmp/uploads/u.pdf"], []⟩ "./tmp/uploads/u.pdf" true).fs, false) :=
  ⟨(c3_cleanup_behaviour c3Env ⟨["./tmp/uploads/u.pdf"], []⟩ "./tmp/uploads/u.pdf").1 (by decide),
    (c3_cleanup_behaviour c3Env ⟨["./tmp/uploads/u.pdf"], []⟩ "./tmp/uploads/u.pdf").2.1
      ["./tmp/uploads/u.pdf"] [],
    (c3_cleanup_behaviour c3Env ⟨["./tmp/uploads/u.pdf"], ["./tmp/uploads/u.pdf"]⟩
        "./tmp/uploads/u.pdf").2.2.1 ⟨by decide, by decide⟩,
    (c3_cleanup_behaviour c3Env ⟨["./tmp/uploads/u.pdf"], []⟩ "./tmp/uploads/u.pdf").2.2.2 (by decide)⟩

/-! ### Claim C7 -/

/-- C7: for every input whose declared kind is an image (jpg, jpeg or png
suffix), the page splitter returns exactly one element, and that element is
the input itself passed by path — not a `pdfStream` re-rasterization. -/
theorem c7_single_image (env : Env) (p : String) (himg : kindOf p = some Kind.image) :
    splitPages env p = .ok [PageSource.imagePath p] := by
  simp [splitPages, himg]

/-- Environment for the C7 witness (its PDF fields are irrelevant to an
image input). -/
def c7Env : Env := ⟨5, none, fun _ => "t", fun _ => none⟩

/-- C7 witness: the theorem applied to a concrete jpg path. -/
theorem c7_single_image_witness :
    splitPages c7Env "photo.jpg" = .ok [PageSource.imagePath "photo.jpg"] :=
  c7_single_image c7Env "photo.jpg" (by decide)

end OcrExtract

namespace OcrExtract

/-! ### Claim C2 -/

/-- C2: for every upload whose filename suffix (case-insensitively) is none
of pdf/jpg/jpeg/png, `process_document` fails with the `ValueError` carrying
the unsupported-file-type message, zero OCR backend calls are issued, no
output document is produced, and the handler maps the error to HTTP 400
with the error message as body. -/
theorem c2_unsupported_rejected (env : Env) (fs : FS) (req : UploadReq)
    (hkey : req.apiKeyPresent = true) (hfile : req.hasFilePart = true)
    (hname : ¬ req.filename = "") (hkind : kindOf (osBasename req.filename) = none) :
    (process_document env ⟨savedPath req.filename :: fs.files, fs.failRemove⟩
        (savedPath req.filename) true).result = .error (.unsupported unsupportedMsg) ∧
    (process_document env ⟨savedPath req.filename :: fs.files, fs.failRemove⟩
        (savedPath req.filename) true).ocrCalls = 0 ∧
    upload_and_convert req env fs =
      (.errResp 400 unsupportedMsg,
        (process_document env ⟨savedPath req.filename :: fs.files, fs.failRemove⟩
          (savedPath req.filename) true).fs) := by
  have hk2 : kindOf (savedPath req.filename) = none := by
    rw [kindOf_savedPath]; exact hkind
  have hbody : pipelineBody env (savedPath req.filename) =
      (.error (.unsupported unsupportedMsg), 0) := by
    simp [pipelineBody, splitPages, hk2]
  have hres : (process_document env ⟨savedPath req.filename :: fs.files, fs.failRemove⟩
      (savedPath req.filename) true).result = .error (.unsupported unsupportedMsg) := by
    rw [process_document_true, hbody]
  refine ⟨hres, ?_, ?_⟩
  · rw [process_document_true, hbody]
  · unfold upload_and_convert
    rw [hkey, hfile]
    simp only [Bool.not_true, Bool.false_eq_true, if_false, if_neg hname, hres]

/-- Environment for the C2 witness (never consulted: the format check
precedes every external call). -/
def c2Env : Env := ⟨0, none, fun _ => "", fun _ => none⟩

/-- C2 witness: the theorem applied to a concrete `.txt` upload. -/
theorem c2_unsupported_rejected_witness :
    (process_document c2Env ⟨[savedPath "notes.txt"], []⟩
        (savedPath "notes.txt") true).result = .error (.unsupported unsupportedMsg) ∧
    (process_document c2Env ⟨[savedPath "notes.txt"], []⟩
        (savedPath "notes.txt") true).ocrCalls = 0 ∧
    upload_and_convert ⟨true, true, "notes.txt"⟩ c2Env ⟨[], []⟩ =
      (.errResp 400 unsupportedMsg,
        (process_document c2Env ⟨[savedPath "notes.txt"], []⟩
          (savedPath "notes.txt") true).fs) :=
  c2_unsupported_rejected c2Env ⟨[], []⟩ ⟨true, true, "notes.txt"⟩ rfl rfl
    (by decide) (by decide)

/-! ### Claim C6 -/

/-- C6: for every upload — PDF or single image — whose pages split
successfully, when the OCR backend call on page index i fails, the pages
before it were called exactly once each and nothing is called after it
(i+1 calls in total — no retry), the invocation aborts with the backend
error and returns no partial document, the handler maps it to HTTP 500
whose body is the fixed generic message — the same constant for every
backend detail `d`, so no internal detail reaches the client — and the
cleanup still removes the uploaded file (when removal itself succeeds). -/
theorem c6_backend_failure (env : Env) (fs : FS) (req : UploadReq)
    (hkey : req.apiKeyPresent = true) (hfile : req.hasFilePart = true)
    (hname : ¬ req.filename = "") (pages : List PageSource)
    (hsplit : splitPages env (savedPath req.filename) = .ok pages)
    (i : Nat) (d : String)
    (hi : i < pages.length) (hfail : env.ocrFail i = some d)
    (hprev : ∀ j, j < i → env.ocrFail j = none) :
    (process_document env ⟨savedPath req.filename :: fs.files, fs.failRemove⟩
        (savedPath req.filename) true).result = .error (.backend d) ∧
    (process_document env ⟨savedPath req.filename :: fs.files, fs.failRemove⟩
        (savedPath req.filename) true).ocrCalls = i + 1 ∧
    upload_and_convert req env fs =
      (.errResp 500 genericErrorBody,
        (process_document env ⟨savedPath req.filename :: fs.files, fs.failRemove⟩
          (savedPath req.filename) true).fs) ∧
    (fs.failRemove.contains (savedPath req.filename) = false →
      (process_document env ⟨savedPath req.filename :: fs.files, fs.failRemove⟩
        (savedPath req.filename) true).fs.files.contains (savedPath req.filename) = false) := by
  have hbody : pipelineBody env (savedPath req.filename) = (.error (.backend d), i + 1) :=
    pipelineBody_fail env (savedPath req.filename) pages hsplit i d hi hfail hprev
  have hres : (process_document env ⟨savedPath req.filename :: fs.files, fs.failRemove⟩
      (savedPath req.filename) true).result = .error (.backend d) := by
    rw [process_document_true, hbody]
  refine ⟨hres, ?_, ?_, ?_⟩
  · rw [process_document_true, hbody]
  · unfold upload_and_convert
    rw [hkey, hfile]
    simp only [Bool.not_true, Bool.false_eq_true, if_false, if_neg hname, hres]
  · intro h
    rw [process_fs]
    exact cleanup_removes _ _ h

/-- Single JPEG image whose one OCR call raises. -/
def c6Env : Env := ⟨0, none, fun _ => "t", fun _ => some "quota"⟩

/-- C6 witness: the theorem applied to a concrete single-image (jpg) upload
whose only backend call fails. -/
theorem c6_backend_failure_witness :
    (process_document c6Env ⟨[savedPath "photo.jpg"], []⟩
        (savedPath "photo.jpg") true).result = .error (.backend "quota") ∧
    (process_document c6Env ⟨[savedPath "photo.jpg"], []⟩
        (savedPath "photo.jpg") true).ocrCalls = 0 + 1 ∧
    upload_and_convert ⟨true, true, "photo.jpg"⟩ c6Env ⟨[], []⟩ =
      (.errResp 500 genericErrorBody,
        (process_document c6Env ⟨[savedPath "photo.jpg"], []⟩
          (savedPath "photo.jpg") true).fs) ∧
    (process_document c6Env ⟨[savedPath "photo.jpg"], []⟩
        (savedPath "photo.jpg") true).fs.files.contains (savedPath "photo.jpg") = false := by
  have h := c6_backend_failure c6Env ⟨[], []⟩ ⟨true, true, "photo.jpg"⟩ rfl rfl
    (by decide) [PageSource.imagePath (savedPath "photo.jpg")] rfl 0 "quota"
    (by decide) rfl (fun j hj => absurd hj (Nat.not_lt_zero j))
  exact ⟨h.1, h.2.1, h.2.2.1, h.2.2.2 (by decide)⟩

end OcrExtract

namespace OcrExtract

/-! ### Claim C8 -/

/-- C8: the kind dispatch lowercases the path before testing the suffix, so
any path ending in a character-case variant of a supported extension (any
`v` whose lowering is ".pdf", ".jpg", ".jpeg" or ".png") is accepted as the
corresponding kind instead of being rejected as unsupported. -/
theorem c8_case_insensitive_suffix (q v : String) :
    (pyLower v = ".pdf" → kindOf (q ++ v) = some Kind.pdf) ∧
    (pyLower v = ".jpg" ∨ pyLower v = ".jpeg" ∨ pyLower v = ".png" →
      kindOf (q ++ v) = some Kind.image) := by
  constructor
  · intro hv
    have h1 : isPdfPath (q ++ v) = true := by
      unfold isPdfPath
      rw [pyLower_append, hv]
      exact pyEndsWith_append_self _ _
    simp [kindOf, h1]
  · intro hv
    have hpdf : isPdfPath (q ++ v) = false := by
      unfold isPdfPath
      rw [pyLower_append]
      rcases hv with hv | hv | hv <;>
        rw [hv, pyEndsWith_append_of_le _ _ _ (by decide)] <;> decide
    have himg : isImagePath (q ++ v) = true := by
      unfold isImagePath imageExts
      simp only [List.any_cons, List.any_nil]
      rcases hv with hv | hv | hv <;>
        rw [pyLower_append, hv] <;>
        simp [pyEndsWith_append_self]
    simp [kindOf, hpdf, himg]

/-- C8 witness: the theorem applied to concrete uppercase and mixed-case
extensions. -/
theorem c8_case_insensitive_suffix_witness :
    kindOf ("scan" ++ ".PDF") = some Kind.pdf ∧
    kindOf ("photo" ++ ".Jpg") = some Kind.image :=
  ⟨(c8_case_insensitive_suffix "scan" ".PDF").1 (by decide),
    (c8_case_insensitive_suffix "photo" ".Jpg").2 (Or.inl (by decide))⟩

/-! ### Claim C10 -/

/-- C10: for every client-supplied filename, the handler saves the upload
exactly at the upload folder joined with the basename of that filename; the
basename never contains a path separator, so the saved path is always the
folder path followed by a single slash-free component — a filename with
directory components cannot direct the write outside the upload folder. -/
theorem c10_saved_inside_upload_folder (f : String) :
    savedPath f = osJoin UPLOAD_FOLDER (osBasename f) ∧
    (∀ c ∈ (osBasename f).data, c ≠ '/') ∧
    savedPath f = "./tmp/uploads/" ++ osBasename f :=
  ⟨rfl, osBasename_no_slash f, savedPath_eq f⟩

/-- C10 witness: the theorem applied to a traversal-shaped filename — the
upload lands at "./tmp/uploads/passwd", inside the upload folder. -/
theorem c10_saved_inside_upload_folder_witness :
    savedPath "../../etc/passwd" = "./tmp/uploads/passwd" := by
  have h := (c10_saved_inside_upload_folder "../../etc/passwd").2.2
  rw [h]
  decide

end OcrExtract
